import Mathlib

/-!
Verification development for the `plane` repository: a phone-controlled
paper-plane game whose real-time core is a PartyKit relay server
(`partykit/index.js`), a Zustand client store (`src/hooks/usePartyKitStore.js`),
a calibration layer (`src/Ui/mobile/ActiveScreen.jsx` with
`src/utils/normalizeYaw.js`) and a game-state store (`src/store/gameStore.js`).
All wire traffic is JSON over WebSocket; we model JSON values with the `Json`
inductive below, and `JSON.parse` of a wire string with an executable
recursive-descent parser (`jsonParse`).  `JSON.stringify`/`JSON.parse` of the
JavaScript runtime are treated as a faithful transport of `Json` values; the
repository's own encoding/decoding decisions — which object shapes are
constructed and how receivers dispatch on fields — are modelled exactly.
-/

namespace Plane

/-- A JSON value: the data model of every message the repository sends.
Numbers are modelled as rationals (exact values of the numerals written on
the wire). -/
inductive Json where
  | null : Json
  | bool (b : Bool) : Json
  | num (q : ℚ) : Json
  | str (s : String) : Json
  | arr (elems : List Json) : Json
  | obj (fields : List (String × Json)) : Json

/-- First-match association-list lookup, the behaviour of JavaScript property
access on the (duplicate-free) object literals the repository constructs. -/
def lookupField (fields : List (String × Json)) (k : String) : Option Json :=
  match fields with
  | [] => none
  | (k', v) :: rest => if k' = k then some v else lookupField rest k

/-- `j[k]` for an object, `undefined` (`none`) otherwise — the semantics of
`data.k` / `data?.k` on a parsed JSON value. -/
def Json.getField (j : Json) (k : String) : Option Json :=
  match j with
  | .obj fields => lookupField fields k
  | _ => none

/-- The `type` tag of a message, when it is a string: `data.type` as consumed
by the `switch (data.type)` / `data.type === '...'` dispatches.  A missing or
non-string tag matches no case. -/
def typeTag (j : Json) : Option String :=
  match j.getField "type" with
  | some (.str s) => some s
  | _ => none

/-- JSON insignificant whitespace. -/
def isWsChar (c : Char) : Bool :=
  c = ' ' || c = '\t' || c = '\n' || c = '\r'

/-- Drop leading JSON whitespace. -/
def skipWs : List Char → List Char
  | [] => []
  | c :: cs => if isWsChar c then skipWs cs else c :: cs

/-- Value of one hexadecimal digit. -/
def hexVal (c : Char) : Option Nat :=
  if '0' ≤ c ∧ c ≤ '9' then some (c.toNat - 48)
  else if 'a' ≤ c ∧ c ≤ 'f' then some (c.toNat - 87)
  else if 'A' ≤ c ∧ c ≤ 'F' then some (c.toNat - 55)
  else none

/-- Body of a JSON string literal (the opening quote already consumed),
handling the escape sequences of the JSON grammar; literal control
characters are rejected.  Returns the decoded string and the rest of the
input. -/
def parseStringAux : List Char → List Char → Option (String × List Char)
  | _, [] => none
  | acc, c :: rest =>
    if c = '"' then some (String.mk acc.reverse, rest)
    else if c = '\\' then
      match rest with
      | [] => none
      | e :: rest2 =>
        if e = '"' then parseStringAux ('"' :: acc) rest2
        else if e = '\\' then parseStringAux ('\\' :: acc) rest2
        else if e = '/' then parseStringAux ('/' :: acc) rest2
        else if e = 'b' then parseStringAux (Char.ofNat 8 :: acc) rest2
        else if e = 'f' then parseStringAux (Char.ofNat 12 :: acc) rest2
        else if e = 'n' then parseStringAux ('\n' :: acc) rest2
        else if e = 'r' then parseStringAux ('\r' :: acc) rest2
        else if e = 't' then parseStringAux ('\t' :: acc) rest2
        else if e = 'u' then
          match rest2 with
          | h1 :: h2 :: h3 :: h4 :: rest3 =>
            match hexVal h1, hexVal h2, hexVal h3, hexVal h4 with
            | some a, some b, some d, some e4 =>
              parseStringAux (Char.ofNat (((a * 16 + b) * 16 + d) * 16 + e4) :: acc) rest3
            | _, _, _, _ => none
          | _ => none
        else none
    else if c.toNat < 32 then none
    else parseStringAux (c :: acc) rest

/-- Longest leading run of decimal digits. -/
def takeDigits : List Char → List Char × List Char
  | [] => ([], [])
  | c :: rest =>
    if c.isDigit then
      let (ds, r) := takeDigits rest
      (c :: ds, r)
    else ([], c :: rest)

/-- Numeric value of a digit run. -/
def natOfDigits (ds : List Char) : Nat :=
  ds.foldl (fun n c => 10 * n + (c.toNat - 48)) 0

/-- Optional fraction part (`.digits`); `0` when absent. -/
def parseFrac : List Char → Option (ℚ × List Char)
  | [] => some (0, [])
  | c :: rest =>
    if c = '.' then
      match takeDigits rest with
      | ([], _) => none
      | (ds, r) => some ((natOfDigits ds : ℚ) / (10 : ℚ) ^ ds.length, r)
    else some (0, c :: rest)

/-- Optional exponent part (`e±digits`) as a scale factor; `1` when absent. -/
def parseExp : List Char → Option (ℚ × List Char)
  | [] => some (1, [])
  | c :: rest =>
    if c = 'e' || c = 'E' then
      match rest with
      | [] => none
      | d :: r =>
        let (sgn, r1) : ℤ × List Char :=
          if d = '+' then (1, r) else if d = '-' then (-1, r) else (1, d :: r)
        match takeDigits r1 with
        | ([], _) => none
        | (ds, r2) => some ((10 : ℚ) ^ (sgn * (natOfDigits ds : ℤ)), r2)
    else some (1, c :: rest)

/-- A JSON number (lenient about leading zeros, otherwise the JSON grammar:
optional minus, digits, optional fraction, optional exponent). -/
def parseNumber (cs : List Char) : Option (ℚ × List Char) :=
  let (neg, cs1) : Bool × List Char :=
    match cs with
    | c :: rest => if c = '-' then (true, rest) else (false, cs)
    | [] => (false, [])
  match takeDigits cs1 with
  | ([], _) => none
  | (ds, cs2) =>
    match parseFrac cs2 with
    | none => none
    | some (f, cs3) =>
      match parseExp cs3 with
      | none => none
      | some (e, cs4) =>
        let mag : ℚ := ((natOfDigits ds : ℚ) + f) * e
        some (if neg then -mag else mag, cs4)

mutual

/-- Recursive-descent parser for one JSON value (the model of `JSON.parse`);
`fuel` bounds the recursion depth and is chosen large enough in `jsonParse`. -/
def parseValue : Nat → List Char → Option (Json × List Char)
  | 0, _ => none
  | fuel + 1, cs =>
    match skipWs cs with
    | [] => none
    | c :: rest =>
      if c = 'n' then
        match rest with
        | 'u' :: 'l' :: 'l' :: r => some (.null, r)
        | _ => none
      else if c = 't' then
        match rest with
        | 'r' :: 'u' :: 'e' :: r => some (.bool true, r)
        | _ => none
      else if c = 'f' then
        match rest with
        | 'a' :: 'l' :: 's' :: 'e' :: r => some (.bool false, r)
        | _ => none
      else if c = '"' then
        match parseStringAux [] rest with
        | some (s, r) => some (.str s, r)
        | none => none
      else if c = '[' then
        match skipWs rest with
        | ']' :: r => some (.arr [], r)
        | cs2 =>
          match parseValue fuel cs2 with
          | some (j, r) =>
            match parseArrayTail fuel r with
            | some (js, r2) => some (.arr (j :: js), r2)
            | none => none
          | none => none
      else if c = Char.ofNat 123 then
        match skipWs rest with
        | d :: r =>
          if d = Char.ofNat 125 then some (.obj [], r)
          else
            match parseMember fuel (d :: r) with
            | some (kv, r2) =>
              match parseObjTail fuel r2 with
              | some (kvs, r3) => some (.obj (kv :: kvs), r3)
              | none => none
            | none => none
        | [] => none
      else
        match parseNumber (c :: rest) with
        | some (q, r) => some (.num q, r)
        | none => none

/-- Array elements after the first one: `, value`* then `]`. -/
def parseArrayTail : Nat → List Char → Option (List Json × List Char)
  | 0, _ => none
  | fuel + 1, cs =>
    match skipWs cs with
    | [] => none
    | c :: rest =>
      if c = ']' then some ([], rest)
      else if c = ',' then
        match parseValue fuel rest with
        | some (j, r) =>
          match parseArrayTail fuel r with
          | some (js, r2) => some (j :: js, r2)
          | none => none
        | none => none
      else none

/-- One `"key": value` object member. -/
def parseMember : Nat → List Char → Option ((String × Json) × List Char)
  | 0, _ => none
  | fuel + 1, cs =>
    match skipWs cs with
    | [] => none
    | c :: rest =>
      if c = '"' then
        match parseStringAux [] rest with
        | some (k, r) =>
          match skipWs r with
          | ':' :: r2 =>
            match parseValue fuel r2 with
            | some (v, r3) => some ((k, v), r3)
            | none => none
          | _ => none
        | none => none
      else none

/-- Object members after the first one: `, member`* then the closing brace. -/
def parseObjTail : Nat → List Char → Option (List (String × Json) × List Char)
  | 0, _ => none
  | fuel + 1, cs =>
    match skipWs cs with
    | [] => none
    | c :: rest =>
      if c = Char.ofNat 125 then some ([], rest)
      else if c = ',' then
        match parseMember fuel rest with
        | some (kv, r) =>
          match parseObjTail fuel r with
          | some (kvs, r2) => some (kv :: kvs, r2)
          | none => none
        | none => none
      else none

end

/-- The model of `JSON.parse`: parse one JSON value and require only
whitespace to follow; `none` models the `SyntaxError` the runtime throws on
malformed input. -/
def jsonParse (s : String) : Option Json :=
  match parseValue (2 * s.length + 4) s.data with
  | some (j, rest) => if skipWs rest = [] then some j else none
  | none => none

/-! ## Relay server (`partykit/index.js`)

`PartyServer` keeps `this.devices`, a JavaScript `Map` from connection id to
`{deviceType, timestamp}`, and routes messages per room.  A `Map` preserves
insertion order, `set` on an existing key updates in place, `delete` removes;
we model it as an association list with those operations.  `room.broadcast(msg,
exclude)` delivers `msg` to every connection of the room not in `exclude`. -/

/-- The value stored per device: `{deviceType: data.deviceType, timestamp:
Date.now()}`.  `deviceType` is whatever JSON the client sent (`none` when the
field was absent, i.e. `undefined`). -/
structure Device where
  deviceType : Option Json
  timestamp : ℚ

/-- Per-room server state: the `this.devices` map. -/
structure ServerState where
  devices : List (String × Device)

/-- `Map.set`: update in place when the key exists, else append. -/
def mapSet (m : List (String × Device)) (k : String) (v : Device) :
    List (String × Device) :=
  if m.any (fun p => p.1 = k) then
    m.map (fun p => if p.1 = k then (k, v) else p)
  else m ++ [(k, v)]

/-- `Map.delete`: remove the entry with the given key. -/
def mapDelete (m : List (String × Device)) (k : String) :
    List (String × Device) :=
  m.filter (fun p => p.1 ≠ k)

/-- `JSON.stringify` of a stored device value: an `undefined` field is
omitted. -/
def encodeDevice (d : Device) : Json :=
  .obj ((match d.deviceType with
          | some v => [("deviceType", v)]
          | none => []) ++ [("timestamp", .num d.timestamp)])

/-- `Array.from(this.devices.entries())` as it appears on the wire: an array
of `[key, value]` pairs in insertion order. -/
def entriesJson (m : List (String × Device)) : Json :=
  .arr (m.map (fun p => .arr [.str p.1, encodeDevice p.2]))

/-- `Array.from(this.devices.keys())`. -/
def keysJson (m : List (String × Device)) : Json :=
  .arr (m.map (fun p => .str p.1))

/-- The client's `register` envelope: `{type: 'register', deviceType}`. -/
def registerMsg (deviceType : Json) : Json :=
  .obj [("type", .str "register"), ("deviceType", deviceType)]

/-- The client's `data` envelope: `{type: 'data', payload}`. -/
def dataMsg (payload : Json) : Json :=
  .obj [("type", .str "data"), ("payload", payload)]

/-- The relayed form the server broadcasts:
`{type: 'data', from: sender.id, payload: data.payload}`. -/
def relayMsg (sender : String) (payload : Json) : Json :=
  .obj [("type", .str "data"), ("from", .str sender), ("payload", payload)]

/-- The `device-joined` broadcast: `{type, deviceType, connectedDevices}`
(with `deviceType` omitted when the register carried none). -/
def deviceJoinedMsg (deviceType : Option Json) (m : List (String × Device)) :
    Json :=
  .obj ([("type", .str "device-joined")] ++
        (match deviceType with
          | some v => [("deviceType", v)]
          | none => []) ++
        [("connectedDevices", entriesJson m)])

/-- The `device-left` broadcast: `{type, connectedDevices}`. -/
def deviceLeftMsg (m : List (String × Device)) : Json :=
  .obj [("type", .str "device-left"), ("connectedDevices", entriesJson m)]

/-- `room.broadcast(msg, excl)`: one delivery per connection of the room not
in the exclusion list. -/
def broadcastTo (conns excl : List String) (msg : Json) :
    List (String × Json) :=
  (conns.filter (fun c => c ∉ excl)).map (fun c => (c, msg))

/-- `PartyServer.onMessage` after `JSON.parse` succeeded: the
`switch (data.type)`.  `register` upserts the sender and broadcasts
`device-joined` to everyone; `data` broadcasts the relayed envelope to every
connection except the sender; any other (or missing) tag matches no case and
does nothing.  Returns the new state and the list of deliveries. -/
def serverHandle (st : ServerState) (sender : String) (conns : List String)
    (now : ℚ) (data : Json) : ServerState × List (String × Json) :=
  match typeTag data with
  | some t =>
    if t = "register" then
      let devices := mapSet st.devices sender
        ⟨data.getField "deviceType", now⟩
      (⟨devices⟩,
        broadcastTo conns [] (deviceJoinedMsg (data.getField "deviceType") devices))
    else if t = "data" then
      (st, broadcastTo conns [sender]
        (relayMsg sender (match data.getField "payload" with
                           | some p => p
                           | none => .null)))
    else (st, [])
  | none => (st, [])

/-- A decode failure at the relay: `JSON.parse` throws `SyntaxError`. -/
inductive ParseError where
  | malformed : ParseError
deriving DecidableEq

/-- `PartyServer.onMessage` on the raw wire string.  The listing calls
`JSON.parse(message)` with no `try`/`catch`, so a malformed message makes the
handler throw to its caller (modelled as `Except.error`) before touching any
state. -/
def serverOnMessage (st : ServerState) (sender : String) (conns : List String)
    (now : ℚ) (message : String) :
    Except ParseError (ServerState × List (String × Json)) :=
  match jsonParse message with
  | none => .error .malformed
  | some data => .ok (serverHandle st sender conns now data)

/-- `PartyServer.onClose`: delete the closed connection from the roster and
broadcast `device-left` with the updated roster to the room's remaining
connections. -/
def serverOnClose (st : ServerState) (conns : List String) (connId : String) :
    ServerState × List (String × Json) :=
  let devices := mapDelete st.devices connId
  (⟨devices⟩, broadcastTo conns [] (deviceLeftMsg devices))

/-- Fold a batch of registrations `(senderId, declaredRole, time)` through
`serverHandle` (states only; the broadcasts are not accumulated). -/
def registerAll (st : ServerState) (regs : List (String × Json × ℚ)) :
    ServerState :=
  regs.foldl
    (fun s r => (serverHandle s r.1 [] r.2.2 (registerMsg r.2.1)).1) st

/-- Fold a batch of disconnects through `serverOnClose` (states only). -/
def closeAll (st : ServerState) (closes : List String) : ServerState :=
  closes.foldl (fun s c => (serverOnClose s [] c).1) st

/-! ## Message envelope codec

The defined wire envelopes: the client-built `register` and `data` objects
(`usePartyKitStore.js`), and the server-built relayed `data` and presence
(`connected` / `device-joined` / `device-left`) objects (`partykit/index.js`).
`encodeEnv` is exactly the object shape `JSON.stringify` receives; `decodeEnv`
reads the tag and the fields the way the receiving dispatch code does. -/

/-- The tagged union of every defined envelope variant. -/
inductive Envelope where
  | registerEnv (deviceType : String) : Envelope
  | dataEnv (payload : Json) : Envelope
  | dataRelayEnv (sender : String) (payload : Json) : Envelope
  | connectedEnv (connectionId roomId : String)
      (connectedDevices : List String) : Envelope
  | deviceJoinedEnv (deviceType : Json)
      (roster : List (String × Device)) : Envelope
  | deviceLeftEnv (roster : List (String × Device)) : Envelope

/-- Encoding: the JSON object each sender constructs. -/
def encodeEnv : Envelope → Json
  | .registerEnv dt => registerMsg (.str dt)
  | .dataEnv p => dataMsg p
  | .dataRelayEnv s p => relayMsg s p
  | .connectedEnv cid rid ks =>
    .obj [("type", .str "connected"), ("connectionId", .str cid),
          ("roomId", .str rid), ("connectedDevices", .arr (ks.map Json.str))]
  | .deviceJoinedEnv dt roster => deviceJoinedMsg (some dt) roster
  | .deviceLeftEnv roster => deviceLeftMsg roster

/-- Read back one stored device value. -/
def decodeDevice (j : Json) : Option Device :=
  match j.getField "timestamp" with
  | some (.num t) => some ⟨j.getField "deviceType", t⟩
  | _ => none

/-- Read back one `[key, value]` roster entry. -/
def decodeEntry (j : Json) : Option (String × Device) :=
  match j with
  | .arr [.str k, v] => (decodeDevice v).map (fun d => (k, d))
  | _ => none

/-- Read back a roster array. -/
def decodeEntryList : List Json → Option (List (String × Device))
  | [] => some []
  | j :: rest =>
    match decodeEntry j, decodeEntryList rest with
    | some e, some es => some (e :: es)
    | _, _ => none

/-- Read back an array of strings. -/
def decodeStrList : List Json → Option (List String)
  | [] => some []
  | .str s :: rest => (decodeStrList rest).map (fun ss => s :: ss)
  | _ :: _ => none

/-- Decoding: dispatch on the `type` tag and read the fields the receivers
read; `none` when the tag is unknown or a required field is missing or of the
wrong shape. -/
def decodeEnv (j : Json) : Option Envelope :=
  match typeTag j with
  | some t =>
    if t = "register" then
      match j.getField "deviceType" with
      | some (.str s) => some (.registerEnv s)
      | _ => none
    else if t = "data" then
      match j.getField "payload" with
      | some p =>
        match j.getField "from" with
        | some (.str f) => some (.dataRelayEnv f p)
        | some _ => none
        | none => some (.dataEnv p)
      | none => none
    else if t = "connected" then
      match j.getField "connectionId", j.getField "roomId",
            j.getField "connectedDevices" with
      | some (.str cid), some (.str rid), some (.arr ks) =>
        (decodeStrList ks).map (fun l => .connectedEnv cid rid l)
      | _, _, _ => none
    else if t = "device-joined" then
      match j.getField "deviceType", j.getField "connectedDevices" with
      | some dt, some (.arr es) =>
        (decodeEntryList es).map (fun m => .deviceJoinedEnv dt m)
      | _, _ => none
    else if t = "device-left" then
      match j.getField "connectedDevices" with
      | some (.arr es) => (decodeEntryList es).map (fun m => .deviceLeftEnv m)
      | _ => none
    else none
  | none => none

/-! ## Calibration layer (`src/utils/normalizeYaw.js`,
`src/Ui/mobile/ActiveScreen.jsx`)

Angles are modelled as rationals (exact values; every operation used is
subtraction and comparison, faithful to the float code on the values the
claims mention). -/

/-- `src/utils/normalizeYaw.js`:
`if (yaw > 180) return yaw - 360; return yaw;`. -/
def normalizeYaw (yaw : ℚ) : ℚ :=
  if yaw > 180 then yaw - 360 else yaw

/-- One raw or calibrated sensor sample `{alpha, beta, gamma}`
(yaw / pitch / roll). -/
structure Orientation where
  alpha : ℚ
  beta : ℚ
  gamma : ℚ
deriving DecidableEq

/-- `ActiveScreen.handleRecalibrate`: the new calibration offset is the
current raw reading (`calibrationRef.current := latestOrientation.current`). -/
def recalibrate (raw : Orientation) : Orientation := raw

/-- The calibrated sample the send interval builds:
`alpha: normalizeYaw(raw.alpha - calibration.alpha)`,
`beta: raw.beta - calibration.beta`, `gamma: raw.gamma - calibration.gamma`. -/
def applyCalibration (raw offset : Orientation) : Orientation :=
  ⟨normalizeYaw (raw.alpha - offset.alpha),
   raw.beta - offset.beta,
   raw.gamma - offset.gamma⟩

/-! ## Client store (`src/hooks/usePartyKitStore.js`)

The Zustand store of the plane repository.  Its `connect` sets the room id
and the socket; `ws.onopen` sets `status: 'connected'`; `ws.onmessage`
dispatches on `data.type === 'data'` and `data.payload?.type`; `disconnect`
closes the socket and sets `status: 'disconnected'`.  The listing installs no
`onerror` or `onclose` handler and never writes `'connecting'` or `'error'`;
the `Status` type still carries those values so the specification's state
machine is expressible. -/

/-- The connection status vocabulary of the specification. -/
inductive Status where
  | disconnected : Status
  | connecting : Status
  | connected : Status
  | error : Status
deriving DecidableEq

/-- The store's state fields (`ws` abstracted to whether a socket object is
held; `devices` is declared in the listing and never written). -/
structure StoreState where
  status : Status
  devices : List Json
  hasWs : Bool
  room : Option String
  mobileData : Option Json
  lastAction : Option Json

/-- The store's initial state. -/
def initStore : StoreState :=
  ⟨.disconnected, [], false, none, none, none⟩

/-- `data.payload?.type` when it is a string (the only way either strict
string comparison in the handler can succeed). -/
def payloadTypeTag (msg : Json) : Option String :=
  match msg.getField "payload" with
  | some p => typeTag p
  | none => none

/-- `ws.onmessage`: on a `data` envelope, store the payload in `mobileData`
when its type is `orientation`, in `lastAction` when it is `button`; every
other message leaves the state untouched. -/
def clientOnMessage (s : StoreState) (msg : Json) : StoreState :=
  match typeTag msg with
  | some t =>
    if t = "data" then
      match payloadTypeTag msg with
      | some pt =>
        if pt = "orientation" then { s with mobileData := msg.getField "payload" }
        else if pt = "button" then { s with lastAction := msg.getField "payload" }
        else s
      | none => s
    else s
  | none => s

/-- The events that drive the store: the store's own actions (`connect`,
`disconnect`) and the socket callbacks.  `connectCall` carries the `?room=`
URL parameter and the random id generated when it is absent. -/
inductive ClientEvent where
  | connectCall (urlRoom : Option String) (randId : String) : ClientEvent
  | wsOpen : ClientEvent
  | wsMessage (msg : Json) : ClientEvent
  | wsError : ClientEvent
  | wsClose : ClientEvent
  | disconnectCall : ClientEvent

/-- One step of the store.  `connect` sets `room` and `ws` (not `status`);
`onopen` sets `'connected'` (and sends `register`, which does not change the
store); socket `error`/`close` have no installed handler, so they change
nothing; `disconnect` drops the socket and sets `'disconnected'`. -/
def clientStep (s : StoreState) (e : ClientEvent) : StoreState :=
  match e with
  | .connectCall urlRoom randId =>
    { s with room := some (urlRoom.getD randId), hasWs := true }
  | .wsOpen => { s with status := .connected }
  | .wsMessage msg => clientOnMessage s msg
  | .wsError => s
  | .wsClose => s
  | .disconnectCall => { s with hasWs := false, status := .disconnected }

/-- Run a list of events through the store. -/
def clientRun (s : StoreState) (events : List ClientEvent) : StoreState :=
  events.foldl clientStep s

/-- The sequence of exposed statuses along a run (initial status included). -/
def statusTrace (s : StoreState) (events : List ClientEvent) : List Status :=
  (events.scanl clientStep s).map StoreState.status

/-- The transition relation the specification claims for the exposed status:
`disconnected → connecting → connected`, `connected → disconnected` on close
or error with `error` as a transient substate resolving to `disconnected`
(staying put is always allowed). -/
def specStatusStep (a b : Status) : Bool :=
  a = b ||
  (a = .disconnected && b = .connecting) ||
  (a = .connecting && b = .connected) ||
  (a = .connected && b = .disconnected) ||
  (a = .connected && b = .error) ||
  (a = .error && b = .disconnected)

/-! ## Game store (`src/store/gameStore.js`) -/

/-- `gameState`: `'START' | 'PLAYING' | 'GAMEOVER'`. -/
inductive GamePhase where
  | START : GamePhase
  | PLAYING : GamePhase
  | GAMEOVER : GamePhase
deriving DecidableEq

/-- The game store's state. -/
structure GameStore where
  gameState : GamePhase
  score : ℚ
  isGameOver : Bool
deriving DecidableEq

/-- Initial state: `{gameState: 'START', score: 0, isGameOver: false}`. -/
def initGameStore : GameStore := ⟨.START, 0, false⟩

/-- The store's four actions. -/
inductive GameOp where
  | startGame : GameOp
  | setGameOver : GameOp
  | incrementScore (amount : ℚ) : GameOp
  | resetGame : GameOp

/-- The actions exactly as `gameStore.js` writes them. -/
def gameStep (s : GameStore) (op : GameOp) : GameStore :=
  match op with
  | .startGame => ⟨.PLAYING, 0, false⟩
  | .setGameOver => { s with gameState := .GAMEOVER, isGameOver := true }
  | .incrementScore amount => { s with score := s.score + amount }
  | .resetGame => ⟨.START, 0, false⟩

/-- Run a list of actions from the initial state. -/
def gameRun (ops : List GameOp) : GameStore :=
  ops.foldl gameStep initGameStore

/-- The payload of the controller's A-button press:
`{type: 'button', id: 'A'}` (`ActiveScreen.handleRecalibrate`). -/
def buttonPayload : Json :=
  .obj [("type", .str "button"), ("id", .str "A")]

/-! ## Theorems -/

/-- `C2` (code_bug evidence): `normalizeYaw` maps `190` to `-170` and fixes
`0`, but at the failing input `-190` it returns `-190` — not the `170` the
claim (and the function's own documentation, "normalizes yaw angle to -180 to
180 range") requires, and outside `(-180, 180]`. -/
theorem c2_normalizeYaw_eval :
    normalizeYaw 190 = -170 ∧ normalizeYaw 0 = 0 ∧
    normalizeYaw (-190) = -190 ∧ normalizeYaw (-190) ≠ 170 ∧
    ¬ (-180 : ℚ) < normalizeYaw (-190) := by
  refine ⟨?_, ?_, ?_, ?_, ?_⟩ <;> norm_num [normalizeYaw]

/-- `C5`: recalibrating on a raw sample and immediately applying the
calibration to the same raw sample yields the zero sample (the claim's
exclusion of the yaw edge `±180` is kept as a hypothesis). -/
theorem c5_calibration_zero (raw : Orientation)
    (h1 : raw.alpha ≠ 180) (h2 : raw.alpha ≠ -180) :
    applyCalibration raw (recalibrate raw) = ⟨0, 0, 0⟩ := by
  cases raw with
  | mk a b g => norm_num [applyCalibration, recalibrate, normalizeYaw]

/-- Witness for `C5` at the spec's scenario sample `{yaw:10, pitch:5,
roll:-3}`. -/
theorem c5_calibration_zero_witness :
    applyCalibration ⟨10, 5, -3⟩ (recalibrate ⟨10, 5, -3⟩) = ⟨0, 0, 0⟩ :=
  c5_calibration_zero ⟨10, 5, -3⟩ (by norm_num) (by norm_num)

/-- One `gameStep` preserves the game-store invariant. -/
theorem gameStep_inv (s : GameStore) (op : GameOp)
    (hs : (s.isGameOver = true ↔ s.gameState = .GAMEOVER) ∧ 0 ≤ s.score)
    (hop : ∀ q : ℚ, op = .incrementScore q → 0 ≤ q) :
    ((gameStep s op).isGameOver = true ↔ (gameStep s op).gameState = .GAMEOVER) ∧
    0 ≤ (gameStep s op).score := by
  cases op with
  | startGame => simp [gameStep]
  | setGameOver => exact ⟨by simp [gameStep], by simpa [gameStep] using hs.2⟩
  | incrementScore q =>
    exact ⟨by simpa [gameStep] using hs.1, add_nonneg hs.2 (hop q rfl)⟩
  | resetGame => simp [gameStep]

/-- Folding actions with non-negative increments preserves the invariant. -/
theorem gameFold_inv (ops : List GameOp) (s : GameStore)
    (hs : (s.isGameOver = true ↔ s.gameState = .GAMEOVER) ∧ 0 ≤ s.score)
    (h : ∀ q : ℚ, GameOp.incrementScore q ∈ ops → 0 ≤ q) :
    ((ops.foldl gameStep s).isGameOver = true ↔
       (ops.foldl gameStep s).gameState = .GAMEOVER) ∧
    0 ≤ (ops.foldl gameStep s).score := by
  induction ops generalizing s with
  | nil => exact hs
  | cons op rest ih =>
    refine ih (gameStep s op)
      (gameStep_inv s op hs (fun q hq => h q (by rw [hq]; exact List.mem_cons_self _ _)))
      (fun q hq => h q (List.mem_cons_of_mem _ hq))

/-- `C9`: every reachable state of the game store satisfies
`isGameOver = true ↔ gameState = 'GAMEOVER'`, and the score is non-negative
whenever every `incrementScore` amount is non-negative. -/
theorem c9_gameStore_invariant (ops : List GameOp)
    (h : ∀ q : ℚ, GameOp.incrementScore q ∈ ops → 0 ≤ q) :
    ((gameRun ops).isGameOver = true ↔ (gameRun ops).gameState = .GAMEOVER) ∧
    0 ≤ (gameRun ops).score :=
  gameFold_inv ops initGameStore (by simp [initGameStore]) h

/-- Witness for `C9` on a concrete play: start, score twice, crash. -/
theorem c9_gameStore_invariant_witness :
    ((gameRun [.startGame, .incrementScore 2, .incrementScore 1, .setGameOver]).isGameOver = true ↔
       (gameRun [.startGame, .incrementScore 2, .incrementScore 1, .setGameOver]).gameState = .GAMEOVER) ∧
    0 ≤ (gameRun [.startGame, .incrementScore 2, .incrementScore 1, .setGameOver]).score :=
  c9_gameStore_invariant [.startGame, .incrementScore 2, .incrementScore 1, .setGameOver]
    (by
      intro q hq
      simp only [List.mem_cons, List.not_mem_nil, or_false] at hq
      rcases hq with h1 | h1 | h1 | h1 <;> first
        | (cases h1; norm_num)
        | simp at h1)

/-- `C10`: a relayed `data` envelope whose payload type is neither
`orientation` nor `button` leaves every field of the client store exactly as
it was. -/
theorem c10_unknown_payload_ignored (s : StoreState) (msg : Json)
    (hdata : typeTag msg = some "data")
    (h1 : payloadTypeTag msg ≠ some "orientation")
    (h2 : payloadTypeTag msg ≠ some "button") :
    clientOnMessage s msg = s := by
  unfold clientOnMessage
  rw [hdata]
  cases hp : payloadTypeTag msg with
  | none => simp
  | some pt =>
    have n1 : ¬ pt = "orientation" := by
      intro hh
      exact h1 (by rw [hp, hh])
    have n2 : ¬ pt = "button" := by
      intro hh
      exact h2 (by rw [hp, hh])
    simp [n1, n2]

/-- Witness for `C10`: a relayed payload of unknown type `weird` is
ignored. -/
theorem c10_unknown_payload_ignored_witness :
    clientOnMessage initStore (relayMsg "m1" (.obj [("type", .str "weird")]))
      = initStore :=
  c10_unknown_payload_ignored initStore
    (relayMsg "m1" (.obj [("type", .str "weird")]))
    (by decide) (by decide) (by decide)

/-- Processing the same message twice leaves the client store where one
processing left it: the handler only overwrites `mobileData` / `lastAction`
with values computed from the message alone. -/
theorem clientOnMessage_idem (s : StoreState) (msg : Json) :
    clientOnMessage (clientOnMessage s msg) msg = clientOnMessage s msg := by
  cases ht : typeTag msg with
  | none => simp [clientOnMessage, ht]
  | some t =>
    by_cases hd : t = "data"
    · subst hd
      cases hp : payloadTypeTag msg with
      | none => simp [clientOnMessage, ht, hp]
      | some pt =>
        by_cases h1 : pt = "orientation"
        · subst h1
          simp [clientOnMessage, ht, hp]
        · by_cases h2 : pt = "button"
          · subst h2
            simp [clientOnMessage, ht, hp, h1]
          · simp [clientOnMessage, ht, hp, h1, h2]
    · simp [clientOnMessage, ht, hd]

/-- `C6` counterexample: after the controller's button envelope is processed
twice in a row, the whole client store equals what it was after processing it
once — the store holds no sequence number or any other token a consumer
could compare, so reads cannot distinguish two sends from one. -/
theorem c6_counterexample :
    clientOnMessage (clientOnMessage initStore (relayMsg "m1" buttonPayload))
        (relayMsg "m1" buttonPayload)
      = clientOnMessage initStore (relayMsg "m1" buttonPayload) ∧
    (clientOnMessage initStore (relayMsg "m1" buttonPayload)).lastAction
      = some buttonPayload := by
  exact ⟨rfl, rfl⟩

/-- `C6` amended: the store keeps only the most recent action payload
(last-write-wins, no sequence token) — processing any message is idempotent
on the store, and a relayed `button` payload is stored verbatim in
`lastAction`. -/
theorem c6_lastAction_lastWriteWins :
    (∀ (s : StoreState) (msg : Json),
       clientOnMessage (clientOnMessage s msg) msg = clientOnMessage s msg) ∧
    (∀ (s : StoreState) (sender : String) (p : Json),
       typeTag p = some "button" →
       (clientOnMessage s (relayMsg sender p)).lastAction = some p) := by
  refine ⟨clientOnMessage_idem, ?_⟩
  intro s sender p hp
  have hpt : payloadTypeTag (relayMsg sender p) = some "button" := by
    simpa [payloadTypeTag, relayMsg, Json.getField, lookupField] using hp
  have htag : typeTag (relayMsg sender p) = some "data" := rfl
  unfold clientOnMessage
  rw [htag, hpt]
  simp [relayMsg, Json.getField, lookupField]

/-- Witness for `C6` (amended): the A-button payload lands in
`lastAction`. -/
theorem c6_lastAction_lastWriteWins_witness :
    (clientOnMessage initStore (relayMsg "m1" buttonPayload)).lastAction
      = some buttonPayload :=
  c6_lastAction_lastWriteWins.2 initStore "m1" buttonPayload (by decide)

/-- The message handler never changes the exposed connection status. -/
theorem clientOnMessage_status (s : StoreState) (msg : Json) :
    (clientOnMessage s msg).status = s.status := by
  cases ht : typeTag msg with
  | none => simp [clientOnMessage, ht]
  | some t =>
    by_cases hd : t = "data"
    · subst hd
      cases hp : payloadTypeTag msg with
      | none => simp [clientOnMessage, ht, hp]
      | some pt =>
        by_cases h1 : pt = "orientation"
        · subst h1
          simp [clientOnMessage, ht, hp]
        · by_cases h2 : pt = "button"
          · subst h2
            simp [clientOnMessage, ht, hp, h1]
          · simp [clientOnMessage, ht, hp, h1, h2]
    · simp [clientOnMessage, ht, hd]

/-- Each store event either keeps the status, or sets `connected` (socket
open) or `disconnected` (explicit `disconnect()`). -/
theorem clientStep_status (s : StoreState) (e : ClientEvent) :
    (clientStep s e).status = s.status ∨
    (e = .wsOpen ∧ (clientStep s e).status = .connected) ∨
    (e = .disconnectCall ∧ (clientStep s e).status = .disconnected) := by
  cases e with
  | connectCall urlRoom randId => exact Or.inl rfl
  | wsOpen => exact Or.inr (Or.inl ⟨rfl, rfl⟩)
  | wsMessage msg => exact Or.inl (clientOnMessage_status s msg)
  | wsError => exact Or.inl rfl
  | wsClose => exact Or.inl rfl
  | disconnectCall => exact Or.inr (Or.inr ⟨rfl, rfl⟩)

/-- Along any run that starts with a binary (`disconnected`/`connected`)
status, every status in the trace stays binary. -/
theorem statusTrace_binary (events : List ClientEvent) (s : StoreState)
    (hs : (s.status = Status.disconnected || s.status = Status.connected) = true) :
    (statusTrace s events).all
      (fun st => st = Status.disconnected || st = Status.connected) = true := by
  induction events generalizing s with
  | nil => simpa [statusTrace, List.scanl] using hs
  | cons e rest ih =>
    have hstep : ((clientStep s e).status = Status.disconnected ||
        (clientStep s e).status = Status.connected) = true := by
      rcases clientStep_status s e with h | ⟨_, h⟩ | ⟨_, h⟩ <;> rw [h] <;>
        simp_all
    have := ih (clientStep s e) hstep
    simpa [statusTrace, List.scanl, hs] using this

/-- `C8` counterexample: the real store goes `disconnected → connected`
directly — `connect()` never writes `connecting`, so the trace of
`[connect, socket open]` contains the transition
`disconnected → connected`, which the claimed state machine
(`specStatusStep`) forbids. -/
theorem c8_counterexample :
    statusTrace initStore [.connectCall none "abc123", .wsOpen]
        = [.disconnected, .disconnected, .connected] ∧
    specStatusStep .disconnected .connected = false := by
  exact ⟨rfl, rfl⟩

/-- `C8` amended: the exposed status only ever takes the values
`disconnected` and `connected`; the only status changes are to `connected`
when the socket opens and to `disconnected` when `disconnect()` is called
(socket `close`/`error` events have no installed handler and change
nothing). -/
theorem c8_amended_status_machine :
    (∀ (s : StoreState) (e : ClientEvent),
       (clientStep s e).status = s.status ∨
       (e = .wsOpen ∧ (clientStep s e).status = .connected) ∨
       (e = .disconnectCall ∧ (clientStep s e).status = .disconnected)) ∧
    (∀ events : List ClientEvent,
       (statusTrace initStore events).all
         (fun st => st = Status.disconnected || st = Status.connected) = true) :=
  ⟨clientStep_status, fun events => statusTrace_binary events initStore (by decide)⟩

/-- `C3` counterexample: on the malformed wire message `"x"` the relay's
`onMessage` does not drop the message and continue — the unguarded
`JSON.parse` makes the handler throw the parse error to its caller. -/
theorem c3_counterexample :
    serverOnMessage ⟨[]⟩ "c1" ["c1", "c2"] 0 "x" = .error .malformed := by
  rfl

/-- `C3` amended: a syntactically invalid envelope makes the relay's message
handler raise the parse error to its caller before any state change or
broadcast (so the roster is left unchanged, but the error does propagate),
while a well-formed envelope of unrecognized kind falls through the `switch`
and is silently dropped with no state change and no deliveries. -/
theorem c3_malformed_throws_unknown_dropped :
    (∀ (st : ServerState) (sender : String) (conns : List String) (now : ℚ)
       (message : String), jsonParse message = none →
       serverOnMessage st sender conns now message = .error .malformed) ∧
    (∀ (st : ServerState) (sender : String) (conns : List String) (now : ℚ)
       (data : Json), typeTag data ≠ some "register" →
       typeTag data ≠ some "data" →
       serverHandle st sender conns now data = (st, [])) := by
  constructor
  · intro st sender conns now message h
    unfold serverOnMessage
    rw [h]
  · intro st sender conns now data h1 h2
    unfold serverHandle
    cases ht : typeTag data with
    | none => rfl
    | some t =>
      have n1 : ¬ t = "register" := by
        intro hh
        exact h1 (by rw [ht, hh])
      have n2 : ¬ t = "data" := by
        intro hh
        exact h2 (by rw [ht, hh])
      simp [n1, n2]

/-- Witness for `C3` (amended): the malformed message `"x"` throws; the
well-formed unknown envelope `{type: 'mystery'}` is dropped without touching
the roster. -/
theorem c3_malformed_throws_unknown_dropped_witness :
    serverOnMessage ⟨[]⟩ "c1" ["c1", "c2"] 0 "x" = .error .malformed ∧
    serverHandle ⟨[]⟩ "c1" ["c1", "c2"] 0 (.obj [("type", .str "mystery")])
      = (⟨[]⟩, []) :=
  ⟨c3_malformed_throws_unknown_dropped.1 ⟨[]⟩ "c1" ["c1", "c2"] 0 "x" (by rfl),
   c3_malformed_throws_unknown_dropped.2 ⟨[]⟩ "c1" ["c1", "c2"] 0
     (.obj [("type", .str "mystery")]) (by decide) (by decide)⟩

/-- A `data` envelope is relayed to every connection except the sender:
computation of the `onMessage` `data` case. -/
theorem serverHandle_dataMsg (st : ServerState) (sender : String)
    (conns : List String) (now : ℚ) (payload : Json) :
    serverHandle st sender conns now (dataMsg payload)
      = (st, broadcastTo conns [sender] (relayMsg sender payload)) := rfl

/-- Filtering a constant-second-component pairing by its first component is
filtering the underlying list. -/
theorem filter_fst_map_pair (l : List String) (m : Json) (x : String) :
    ((l.map (fun c => (c, m))).filter (fun d => d.1 = x))
      = (l.filter (fun c => c = x)).map (fun c => (c, m)) := by
  induction l with
  | nil => rfl
  | cons a rest ih =>
    by_cases h : a = x <;> simp [h, ih]

/-- A list not containing `x` has no elements equal to `x`. -/
theorem filter_eq_nil_of_not_mem (l : List String) (x : String)
    (h : x ∉ l) : l.filter (fun c => c = x) = [] := by
  induction l with
  | nil => rfl
  | cons a rest ih =>
    have hax : ¬ a = x := fun hh => h (by rw [hh]; exact List.mem_cons_self _ _)
    simp [hax, ih (fun hm => h (List.mem_cons_of_mem _ hm))]

/-- In a duplicate-free list containing `x`, exactly one element equals
`x`. -/
theorem length_filter_eq_one (l : List String) (x : String)
    (hnd : l.Nodup) (hx : x ∈ l) :
    (l.filter (fun c => c = x)).length = 1 := by
  induction l with
  | nil => cases hx
  | cons a rest ih =>
    rcases List.mem_cons.mp hx with rfl | hmem
    · have hnr : x ∉ rest := (List.nodup_cons.mp hnd).1
      simp [filter_eq_nil_of_not_mem rest x hnr]
    · have hax : ¬ a = x := by
        intro hh
        exact (List.nodup_cons.mp hnd).1 (hh ▸ hmem)
      simp [hax, ih (List.nodup_cons.mp hnd).2 hmem]

/-- `C1`: when a device sends a `data` envelope, the relay delivers the
relayed `data{from, payload}` envelope exactly once to every other
connection in the room and zero times to the sender, and every delivery
carries `{from: senderId, payload}`. -/
theorem c1_fanout_exclusion (st : ServerState) (conns : List String)
    (sender : String) (payload : Json) (now : ℚ) (hnd : conns.Nodup) :
    ((serverHandle st sender conns now (dataMsg payload)).2.filter
        (fun d => d.1 = sender)).length = 0 ∧
    (∀ c ∈ conns, c ≠ sender →
      ((serverHandle st sender conns now (dataMsg payload)).2.filter
        (fun d => d.1 = c)).length = 1) ∧
    (∀ d ∈ (serverHandle st sender conns now (dataMsg payload)).2,
      d.2 = relayMsg sender payload) := by
  rw [serverHandle_dataMsg]
  unfold broadcastTo
  refine ⟨?_, ?_, ?_⟩
  · rw [filter_fst_map_pair]
    have hs : sender ∉ conns.filter (fun c => c ∉ [sender]) := by
      intro hmem
      have := (List.mem_filter.mp hmem).2
      simp at this
    simp [filter_eq_nil_of_not_mem _ _ hs]
  · intro c hc hcs
    have hcmem : c ∈ conns.filter (fun x => x ∉ [sender]) :=
      List.mem_filter.mpr ⟨hc, by simp [hcs]⟩
    rw [filter_fst_map_pair, List.length_map]
    exact length_filter_eq_one _ c (hnd.filter _) hcmem
  · intro d hd
    rcases List.mem_map.mp hd with ⟨c, _, rfl⟩
    rfl

/-- Witness for `C1` with the room `{A, B, C}` of testable property P2:
`A` sends, `B` and `C` each get exactly one relayed copy, `A` gets none. -/
theorem c1_fanout_exclusion_witness :
    ((serverHandle ⟨[]⟩ "A" ["A", "B", "C"] 0 (dataMsg .null)).2.filter
        (fun d => d.1 = "A")).length = 0 ∧
    (∀ c ∈ ["A", "B", "C"], c ≠ "A" →
      ((serverHandle ⟨[]⟩ "A" ["A", "B", "C"] 0 (dataMsg .null)).2.filter
        (fun d => d.1 = c)).length = 1) ∧
    (∀ d ∈ (serverHandle ⟨[]⟩ "A" ["A", "B", "C"] 0 (dataMsg .null)).2,
      d.2 = relayMsg "A" .null) :=
  c1_fanout_exclusion ⟨[]⟩ ["A", "B", "C"] "A" .null 0 (by decide)

/-- A stored device value decodes back to itself. -/
theorem decodeDevice_encode (d : Device) :
    decodeDevice (encodeDevice d) = some d := by
  cases d with
  | mk dt ts => cases dt <;> rfl

/-- An encoded roster decodes back to itself. -/
theorem decodeEntryList_encode (m : List (String × Device)) :
    decodeEntryList (m.map (fun p => Json.arr [.str p.1, encodeDevice p.2]))
      = some m := by
  induction m with
  | nil => rfl
  | cons p rest ih =>
    simp [decodeEntryList, decodeEntry, decodeDevice_encode, ih]

/-- An encoded string array decodes back to itself. -/
theorem decodeStrList_encode (l : List String) :
    decodeStrList (l.map Json.str) = some l := by
  induction l with
  | nil => rfl
  | cons s rest ih => simp [decodeStrList, ih]

/-- `C4`: for every defined envelope variant (register, client and relayed
data, and the presence family connected / device-joined / device-left),
decoding the encoding returns the envelope: `decode (encode e) = some e`. -/
theorem c4_codec_roundtrip (e : Envelope) :
    decodeEnv (encodeEnv e) = some e := by
  cases e with
  | registerEnv dt => rfl
  | dataEnv p => rfl
  | dataRelayEnv s p => rfl
  | connectedEnv cid rid ks =>
    simp [decodeEnv, encodeEnv, typeTag, Json.getField, lookupField,
      decodeStrList_encode]
  | deviceJoinedEnv dt roster =>
    simp [decodeEnv, encodeEnv, deviceJoinedMsg, entriesJson, typeTag,
      Json.getField, lookupField, decodeEntryList_encode]
  | deviceLeftEnv roster =>
    simp [decodeEnv, encodeEnv, deviceLeftMsg, entriesJson, typeTag,
      Json.getField, lookupField, decodeEntryList_encode]

/-- Computation of the `onMessage` `register` case: upsert, then broadcast
`device-joined` with the updated roster to everyone. -/
theorem serverHandle_registerMsg (st : ServerState) (sender : String)
    (conns : List String) (now : ℚ) (dt : Json) :
    serverHandle st sender conns now (registerMsg dt)
      = (⟨mapSet st.devices sender ⟨some dt, now⟩⟩,
         broadcastTo conns []
           (deviceJoinedMsg (some dt)
             (mapSet st.devices sender ⟨some dt, now⟩))) := rfl

/-- `Map.set` with a fresh key appends the entry. -/
theorem mapSet_fresh (m : List (String × Device)) (k : String) (v : Device)
    (h : k ∉ m.map Prod.fst) : mapSet m k v = m ++ [(k, v)] := by
  unfold mapSet
  rw [if_neg]
  intro hc
  rcases List.any_eq_true.mp hc with ⟨p, hp, hpk⟩
  exact h (List.mem_map.mpr ⟨p, hp, by simpa using hpk⟩)

/-- Registering a batch of fresh, pairwise-distinct connection ids appends
one roster entry per registration, carrying the declared role and time. -/
theorem registerAll_fresh (regs : List (String × Json × ℚ))
    (m : List (String × Device))
    (h : (m.map Prod.fst ++ regs.map (fun r => r.1)).Nodup) :
    (registerAll ⟨m⟩ regs).devices
      = m ++ regs.map (fun r => (r.1, (⟨some r.2.1, r.2.2⟩ : Device))) := by
  induction regs generalizing m with
  | nil => simp [registerAll]
  | cons r rest ih =>
    have hk : r.1 ∉ m.map Prod.fst := by
      rcases List.nodup_append.mp h with ⟨-, -, hdisj⟩
      intro hmem
      exact hdisj hmem (by simp)
    have step : registerAll ⟨m⟩ (r :: rest)
        = registerAll ⟨mapSet m r.1 ⟨some r.2.1, r.2.2⟩⟩ rest := rfl
    have hyp : ((m ++ [(r.1, (⟨some r.2.1, r.2.2⟩ : Device))]).map Prod.fst
        ++ rest.map (fun r => r.1)).Nodup := by
      simpa [List.append_assoc] using h
    rw [step, mapSet_fresh m r.1 _ hk, ih _ hyp]
    simp

/-- Closing a batch of connections filters their keys out of the roster. -/
theorem closeAll_devices (closes : List String) (st : ServerState) :
    (closeAll st closes).devices
      = st.devices.filter (fun p => p.1 ∉ closes) := by
  induction closes generalizing st with
  | nil => simp [closeAll]
  | cons c rest ih =>
    have step : closeAll st (c :: rest)
        = closeAll ⟨mapDelete st.devices c⟩ rest := rfl
    rw [step, ih ⟨mapDelete st.devices c⟩]
    show (mapDelete st.devices c).filter _ = _
    unfold mapDelete
    rw [List.filter_filter]
    apply List.filter_congr
    intro p _
    by_cases h1 : p.1 = c <;> by_cases h2 : p.1 ∈ rest <;> simp [h1, h2]

/-- Deleting one present key from a duplicate-free roster removes exactly
one entry. -/
theorem length_filter_key_ne (m : List (String × Device)) (c : String)
    (hmnd : (m.map Prod.fst).Nodup) (hc : c ∈ m.map Prod.fst) :
    (m.filter (fun p => p.1 ≠ c)).length + 1 = m.length := by
  induction m with
  | nil => cases hc
  | cons p rest ih =>
    have hnd : p.1 ∉ rest.map Prod.fst ∧ (rest.map Prod.fst).Nodup :=
      List.nodup_cons.mp (by simpa using hmnd)
    simp only [List.filter_cons]
    by_cases h : p.1 = c
    · have hcond : (decide (p.1 ≠ c)) = false := by simpa using h
      rw [hcond, if_neg (by simp)]
      have hnotin : c ∉ rest.map Prod.fst := h ▸ hnd.1
      have hfix : rest.filter (fun q => q.1 ≠ c) = rest := by
        apply List.filter_eq_self.mpr
        intro q hq
        have hqmem : q.1 ∈ rest.map Prod.fst := List.mem_map.mpr ⟨q, hq, rfl⟩
        have hqc : ¬ q.1 = c := fun hh => hnotin (hh ▸ hqmem)
        simpa using hqc
      rw [hfix, List.length_cons]
    · have hcond : (decide (p.1 ≠ c)) = true := by simpa using h
      rw [hcond, if_pos rfl]
      have hc' : c ∈ rest.map Prod.fst := by
        rw [List.map_cons] at hc
        rcases List.mem_cons.mp hc with h1 | h1
        · exact absurd h1.symm h
        · exact h1
      have hrec := ih hnd.2 hc'
      simp only [List.length_cons]
      omega

/-- Removing a duplicate-free batch of present keys from a duplicate-free
roster removes exactly one entry per key. -/
theorem length_filter_not_mem (m : List (String × Device))
    (closes : List String)
    (hmnd : (m.map Prod.fst).Nodup) (hcnd : closes.Nodup)
    (hsub : ∀ c ∈ closes, c ∈ m.map Prod.fst) :
    (m.filter (fun p => p.1 ∉ closes)).length + closes.length = m.length := by
  induction closes generalizing m with
  | nil => simp
  | cons c rest ih =>
    have hsplit : m.filter (fun p => p.1 ∉ c :: rest)
        = (m.filter (fun p => p.1 ≠ c)).filter (fun p => p.1 ∉ rest) := by
      rw [List.filter_filter]
      apply List.filter_congr
      intro p _
      by_cases h1 : p.1 = c <;> by_cases h2 : p.1 ∈ rest <;> simp [h1, h2]
    have hmnd' : ((m.filter (fun p => p.1 ≠ c)).map Prod.fst).Nodup :=
      hmnd.sublist ((List.filter_sublist m).map Prod.fst)
    have hsub' : ∀ d ∈ rest, d ∈ (m.filter (fun p => p.1 ≠ c)).map Prod.fst := by
      intro d hd
      have hdc : d ≠ c := by
        intro hh
        exact (List.nodup_cons.mp hcnd).1 (hh ▸ hd)
      rcases List.mem_map.mp (hsub d (List.mem_cons_of_mem _ hd)) with
        ⟨p, hpm, hpd⟩
      refine List.mem_map.mpr ⟨p, List.mem_filter.mpr ⟨hpm, ?_⟩, hpd⟩
      have hpc : ¬ p.1 = c := by
        rw [hpd]
        exact hdc
      simpa using hpc
    have hrec := ih (m.filter (fun p => p.1 ≠ c)) hmnd'
      (List.nodup_cons.mp hcnd).2 hsub'
    have hone := length_filter_key_ne m c hmnd (hsub c (by simp))
    rw [hsplit]
    simp only [List.length_cons]
    omega

/-- `C7`: after `N` devices with distinct ids register and `M` of them
disconnect, the roster has exactly `N − M` entries, each carrying the role
(and time) declared at registration; and `onClose` broadcasts the roster
with exactly the closed device removed to every remaining connection. -/
theorem c7_roster_consistency (regs : List (String × Json × ℚ))
    (closes : List String)
    (hnd : (regs.map (fun r => r.1)).Nodup) (hcnd : closes.Nodup)
    (hsub : ∀ c ∈ closes, c ∈ regs.map (fun r => r.1)) :
    (closeAll (registerAll ⟨[]⟩ regs) closes).devices.length
        = regs.length - closes.length ∧
    (∀ r ∈ regs, r.1 ∉ closes →
       (r.1, (⟨some r.2.1, r.2.2⟩ : Device))
         ∈ (closeAll (registerAll ⟨[]⟩ regs) closes).devices) ∧
    (∀ (st : ServerState) (conns : List String) (connId : String),
       (serverOnClose st conns connId).2
         = conns.map (fun c => (c, deviceLeftMsg (mapDelete st.devices connId)))) := by
  have hkeys : (regs.map (fun r => (r.1, (⟨some r.2.1, r.2.2⟩ : Device)))).map Prod.fst
      = regs.map (fun r => r.1) := by
    simp [List.map_map, Function.comp]
  have hreg : (registerAll ⟨[]⟩ regs).devices
      = regs.map (fun r => (r.1, (⟨some r.2.1, r.2.2⟩ : Device))) := by
    simpa using registerAll_fresh regs [] (by simpa using hnd)
  have hclose : (closeAll (registerAll ⟨[]⟩ regs) closes).devices
      = (regs.map (fun r => (r.1, (⟨some r.2.1, r.2.2⟩ : Device)))).filter
          (fun p => p.1 ∉ closes) := by
    rw [closeAll_devices closes (registerAll ⟨[]⟩ regs), hreg]
  refine ⟨?_, ?_, ?_⟩
  · rw [hclose]
    have := length_filter_not_mem
      (regs.map (fun r => (r.1, (⟨some r.2.1, r.2.2⟩ : Device)))) closes
      (by rw [hkeys]; exact hnd) hcnd
      (by rw [hkeys]; exact hsub)
    have hlm : (regs.map (fun r => (r.1, (⟨some r.2.1, r.2.2⟩ : Device)))).length
        = regs.length := List.length_map _ _
    omega
  · intro r hr hnc
    rw [hclose]
    exact List.mem_filter.mpr
      ⟨List.mem_map.mpr ⟨r, hr, rfl⟩, by simpa using hnc⟩
  · intro st conns connId
    unfold serverOnClose broadcastTo
    simp

/-- Witness for `C7`: three devices register (`A`/`C` displays, `B`
controller), `B` disconnects; the roster keeps the two surviving entries
with their declared roles, and `onClose` broadcast shape at that state. -/
theorem c7_roster_consistency_witness :
    (closeAll (registerAll ⟨[]⟩
        [("A", .str "display", 1), ("B", .str "controller", 2),
         ("C", .str "display", 3)]) ["B"]).devices.length
      = ([("A", Json.str "display", (1 : ℚ)), ("B", .str "controller", 2),
          ("C", .str "display", 3)] : List (String × Json × ℚ)).length - ["B"].length ∧
    (∀ r ∈ ([("A", Json.str "display", (1 : ℚ)), ("B", .str "controller", 2),
             ("C", .str "display", 3)] : List (String × Json × ℚ)),
       r.1 ∉ ["B"] →
       (r.1, (⟨some r.2.1, r.2.2⟩ : Device))
         ∈ (closeAll (registerAll ⟨[]⟩
              [("A", .str "display", 1), ("B", .str "controller", 2),
               ("C", .str "display", 3)]) ["B"]).devices) ∧
    (∀ (st : ServerState) (conns : List String) (connId : String),
       (serverOnClose st conns connId).2
         = conns.map (fun c => (c, deviceLeftMsg (mapDelete st.devices connId)))) :=
  c7_roster_consistency
    [("A", .str "display", 1), ("B", .str "controller", 2), ("C", .str "display", 3)]
    ["B"] (by decide) (by decide) (by decide)

end Plane
